import Mathlib

/-!
Verification of the Orders trade-streaming pipeline (Go sources under src/).

The development shallowly embeds the parts of the program reached by the
claims: the candle model of internal/models (src/unnamed/part_007), the
minute aggregator and migrator (src/pkg/storage/aggregator.go), the cold
store upsert (src/pkg/storage/postgres.go), the hot-store history reads
(src/pkg/storage/redis.go), symbol selection (src/pkg/binance/client.go)
and the per-frame sink sequence (src/pkg/processor/service.go,
src/pkg/binance/client.go).

Conventions of the embedding:
* Go `time.Time` becomes `GoTime`: a millisecond instant plus a flag
  recording whether the location is UTC.  `UTC()` keeps the instant and
  sets the flag; `IsZero` compares against the instant of Go's zero time
  (January 1, year 1 UTC).  `Truncate(time.Minute)` floors the instant to
  a multiple of 60000 ms; Go truncates relative to its zero time, which
  lies on the minute grid, so flooring the Unix instant is the same map.
* The decimal strings of the source ("price and quantity preserve source
  precision") are kept as `String`.  Numeric values of decimals live in
  `Dec`, an exact scaled-integer decimal (`num / 10 ^ exp`): this is the
  value semantics of Postgres NUMERIC and the exact reading of the wire
  decimals.  Where Go calls `strconv.ParseFloat` and ignores the error,
  the embedding uses `parseDec`, which yields 0 on malformed input,
  matching the zero value the Go code proceeds with.  Binary float64
  rounding is not modelled; no claim in scope depends on it.
* Go string comparison (`<`, `>` on `string`) is lexicographic on the
  byte sequence; for the ASCII price strings involved this is exactly
  Lean's lexicographic `<` on `String`.
-/

/-- Go `<` on strings: lexicographic comparison of the underlying byte
sequences (all strings involved are ASCII, so comparing scalar values
character by character is the same order). -/
def goStrLtL : List Char → List Char → Bool
  | [], [] => false
  | [], _ :: _ => true
  | _ :: _, [] => false
  | a :: as, b :: bs =>
    if a < b then true
    else if b < a then false
    else goStrLtL as bs

/-- Go string comparison `s < t`. -/
def goStrLt (s t : String) : Bool :=
  goStrLtL s.data t.data

/-- Decimal digit test, `c` between '0' and '9'. -/
def isDigitCh (c : Char) : Bool :=
  '0' ≤ c && c ≤ '9'

/-- Numeric value of a run of decimal digits (most significant first). -/
def digitsToNat (l : List Char) : Nat :=
  l.foldl (fun a c => a * 10 + (c.toNat - '0'.toNat)) 0

/-- Split a character list at the first '.', returning the integer part
and, when a dot is present, the fractional part. -/
def splitAtDot : List Char → List Char × Option (List Char)
  | [] => ([], none)
  | c :: rest =>
    if c = '.' then ([], some rest)
    else
      let (ip, fp) := splitAtDot rest
      (c :: ip, fp)

/-- An exact decimal value `num / 10 ^ exp`.  This is the value space of
the source's decimal strings and of Postgres NUMERIC columns.  Two
representations can denote one value (`⟨5,1⟩` and `⟨50,2⟩` are both 0.5);
value-level order and equality are `Dec.lt` / `Dec.le` / `Dec.veq`. -/
structure Dec where
  num : Int
  exp : Nat
  deriving DecidableEq, Repr

/-- The decimal value zero. -/
def Dec.zero : Dec := { num := 0, exp := 0 }

/-- Numeric order on decimal values (cross-multiplied). -/
def Dec.lt (a b : Dec) : Bool :=
  a.num * 10 ^ b.exp < b.num * 10 ^ a.exp

/-- Numeric order on decimal values, non-strict. -/
def Dec.le (a b : Dec) : Bool :=
  a.num * 10 ^ b.exp ≤ b.num * 10 ^ a.exp

/-- Value equality of decimals. -/
def Dec.veq (a b : Dec) : Bool :=
  a.num * 10 ^ b.exp = b.num * 10 ^ a.exp

/-- Exact decimal addition (common scale). -/
def Dec.add (a b : Dec) : Dec :=
  let e := Nat.max a.exp b.exp
  { num := a.num * 10 ^ (e - a.exp) + b.num * 10 ^ (e - b.exp), exp := e }

/-- SQL `GREATEST` on two NUMERIC values. -/
def Dec.max (a b : Dec) : Dec :=
  if Dec.lt a b then b else a

/-- SQL `LEAST` on two NUMERIC values. -/
def Dec.min (a b : Dec) : Dec :=
  if Dec.lt b a then b else a

/-- Parse an unsigned plain decimal literal (digits, optional dot,
digits) exactly.  `none` on any other shape. -/
def parseUnsignedDec (l : List Char) : Option Dec :=
  let (ip, fp?) := splitAtDot l
  let fp := fp?.getD []
  if ip.all isDigitCh && fp.all isDigitCh && (ip ≠ [] || fp ≠ []) then
    some { num := (digitsToNat ip * 10 ^ fp.length + digitsToNat fp : Nat),
           exp := fp.length }
  else
    none

/-- Parse a signed plain decimal literal exactly. -/
def parseDecCore : List Char → Option Dec
  | '-' :: rest => (parseUnsignedDec rest).map (fun d => { d with num := -d.num })
  | '+' :: rest => parseUnsignedDec rest
  | l => parseUnsignedDec l

/-- Model of `strconv.ParseFloat(s, 64)` with the error ignored, as the
source does: the parsed value, or 0 when parsing fails.  The embedding
reads the decimal exactly instead of rounding to binary float64. -/
def parseDec (s : String) : Dec :=
  (parseDecCore s.data).getD Dec.zero

/-- Drop trailing zero fractional digits (value preserved). -/
def decStrip : Int → Nat → Dec
  | n, 0 => { num := n, exp := 0 }
  | n, e + 1 => if n % 10 = 0 then decStrip (n / 10) e else { num := n, exp := e + 1 }

/-- Normal form of a decimal: no trailing zero fractional digits. -/
def Dec.normalize (d : Dec) : Dec :=
  decStrip d.num d.exp

/-- Model of `strconv.FormatFloat(v, 'f', -1, 64)` on the exact value:
the shortest plain decimal string denoting the value (no exponent form,
no trailing zeros). -/
def formatDec (d : Dec) : String :=
  let d := d.normalize
  let sign := if d.num < 0 then "-" else ""
  let n := d.num.natAbs
  if d.exp = 0 then
    sign ++ toString n
  else
    let ip := n / 10 ^ d.exp
    let raw := toString (n % 10 ^ d.exp)
    let padded := String.mk (List.replicate (d.exp - raw.length) '0') ++ raw
    sign ++ toString ip ++ "." ++ padded

/-- Go `time.Time`: the instant in Unix milliseconds together with
whether the attached location is UTC. -/
structure GoTime where
  ms : Int
  isUTC : Bool
  deriving DecidableEq, Repr

/-- Unix milliseconds of Go's zero `time.Time` (0001-01-01T00:00:00Z). -/
def goZeroMs : Int := -62135596800000

/-- `time.Time.UTC()`: same instant, location set to UTC. -/
def GoTime.utc (t : GoTime) : GoTime :=
  { t with isUTC := true }

/-- `time.Time.IsZero()`: the instant of the zero Time. -/
def GoTime.isZero (t : GoTime) : Bool :=
  t.ms = goZeroMs

/-- `time.Time.Before`: instant comparison. -/
def GoTime.before (t u : GoTime) : Bool :=
  t.ms < u.ms

/-- Floor an instant to the minute grid: `Truncate(time.Minute)`. -/
def truncMinuteMs (ms : Int) : Int :=
  ms - ms % 60000

/-- `time.Time.Truncate(time.Minute)`: the location is kept. -/
def GoTime.truncMinute (t : GoTime) : GoTime :=
  { t with ms := truncMinuteMs t.ms }

/-- `time.UnixMilli(m)`: the instant, in the local (non-UTC) location. -/
def unixMilli (m : Int) : GoTime :=
  { ms := m, isUTC := false }

/-! ## internal/models (src/unnamed/part_007) -/

/-- `models.Trade`, the processed trade handed to storage. -/
structure Trade where
  symbol : String
  price : String
  quantity : String
  tradeID : Int
  time : GoTime
  eventTime : GoTime
  isBuyerMaker : Bool
  deriving DecidableEq, Repr

/-- `models.TradeData`, the wire-format trade payload. -/
structure TradeData where
  eventType : String
  eventTime : Int
  symbol : String
  tradeID : Int
  price : String
  quantity : String
  buyerOrderID : Int
  sellerOrderID : Int
  tradeTime : Int
  isBuyerMaker : Bool
  deriving DecidableEq, Repr

/-- `models.AggTradeEvent` (the raw bytes and debug flag are not part of
the data the claims touch; `Raw` is the JSON the event was decoded from). -/
structure AggTradeEvent where
  stream : String
  data : TradeData
  deriving DecidableEq, Repr

/-- `TradeData.ToTrade`. -/
def TradeData.toTrade (td : TradeData) : Trade :=
  { symbol := td.symbol
    price := td.price
    quantity := td.quantity
    tradeID := td.tradeID
    time := unixMilli td.tradeTime
    eventTime := unixMilli td.eventTime
    isBuyerMaker := td.isBuyerMaker }

/-- `AggTradeEvent.ToTrade` delegates to the same fields. -/
def AggTradeEvent.toTrade (e : AggTradeEvent) : Trade :=
  { symbol := e.data.symbol
    price := e.data.price
    quantity := e.data.quantity
    tradeID := e.data.tradeID
    time := unixMilli e.data.tradeTime
    eventTime := unixMilli e.data.eventTime
    isBuyerMaker := e.data.isBuyerMaker }

/-- `models.Candle`. -/
structure Candle where
  timestamp : GoTime
  openPrice : String
  highPrice : String
  lowPrice : String
  closePrice : String
  volume : String
  tradeCount : Int
  deriving DecidableEq, Repr

/-- `models.NewCandle(timestamp)`. -/
def newCandle (timestamp : GoTime) : Candle :=
  { timestamp := timestamp
    openPrice := ""
    highPrice := ""
    lowPrice := ""
    closePrice := ""
    volume := "0"
    tradeCount := 0 }

/-- `Candle.UpdateFromTrade`.  The high/low branches compare the raw
price strings with Go string ordering (lexicographic), exactly as the
source does; only the volume is parsed numerically. -/
def updateFromTrade (c : Candle) (trade : Trade) : Candle :=
  let c := if c.openPrice = "" then { c with openPrice := trade.price } else c
  let c := if c.highPrice = "" || goStrLt c.highPrice trade.price then
      { c with highPrice := trade.price } else c
  let c := if c.lowPrice = "" || goStrLt trade.price c.lowPrice then
      { c with lowPrice := trade.price } else c
  let c := { c with closePrice := trade.price }
  let currentVolume := parseDec c.volume
  let tradeVolume := parseDec trade.quantity
  let newVolume := Dec.add currentVolume tradeVolume
  let c := { c with volume := formatDec newVolume }
  { c with tradeCount := c.tradeCount + 1 }

/-! ## Association tables

Go maps keyed by candle key / minute.  `tblInsert` replaces the binding
in place, keeping first-insertion order; Go map iteration order is
unspecified, so theorems only use lookup, membership and length. -/

/-- Lookup in an association list. -/
def tblLookup {K V : Type} [DecidableEq K] : List (K × V) → K → Option V
  | [], _ => none
  | (k, v) :: rest, key => if k = key then some v else tblLookup rest key

/-- Insert or replace a binding in an association list. -/
def tblInsert {K V : Type} [DecidableEq K] : List (K × V) → K → V → List (K × V)
  | [], key, v => [(key, v)]
  | (k, w) :: rest, key, v =>
    if k = key then (k, v) :: rest else (k, w) :: tblInsert rest key v

/-! ## Aggregator (src/pkg/storage/aggregator.go) -/

/-- The aggregator's candle key.  The source key is the string
`symbol + ":" + candleTime.Format(RFC3339)`; RFC3339 is injective on
minute instants in a fixed location and the symbol has no colon, so the
key is equivalent to the pair (symbol, minute instant). -/
abbrev AggKey := String × Int

/-- `TradeAggregator.ProcessTrade`: truncate the trade time to its
minute, look up or create the candle for (symbol, minute), update it. -/
def processTrade (table : List (AggKey × Candle)) (trade : Trade) :
    List (AggKey × Candle) :=
  let candleTime := trade.time.truncMinute
  let key : AggKey := (trade.symbol, candleTime.ms)
  let candle :=
    match tblLookup table key with
    | some c => c
    | none => newCandle candleTime
  tblInsert table key (updateFromTrade candle trade)

/-- The loop body of `TradeAggregator.flushCandles`, with the cold-store
call abstracted by the success predicate `storeOk` (a failing
`StoreCandleData` hits the `continue` branch and leaves the entry in the
table). -/
def flushStep (storeOk : String → Candle → Bool) (currentMinute : Int)
    (acc : List (AggKey × Candle) × List (String × Candle) × List (String × Candle))
    (kv : AggKey × Candle) :
    List (AggKey × Candle) × List (String × Candle) × List (String × Candle) :=
  let (remaining, flushed, attempted) := acc
  -- `candle.Timestamp.UTC().Before(currentMinute)`
  if (kv.2.timestamp.utc).ms < currentMinute then
    let symbol := kv.1.1   -- strings.Split(key, ":")[0]
    if storeOk symbol kv.2 then
      (remaining, flushed ++ [(symbol, kv.2)], attempted ++ [(symbol, kv.2)])
    else
      (remaining ++ [kv], flushed, attempted ++ [(symbol, kv.2)])
  else
    (remaining ++ [kv], flushed, attempted)

/-- `TradeAggregator.flushCandles`: walk the candle table once,
attempting a cold-store write for every candle from an already-closed
minute.  Returns (remaining table, successfully flushed writes,
attempted writes). -/
def flushCandles (storeOk : String → Candle → Bool) (currentMinute : Int)
    (table : List (AggKey × Candle)) :
    List (AggKey × Candle) × List (String × Candle) × List (String × Candle) :=
  table.foldl (flushStep storeOk currentMinute) ([], [], [])

/-! ## Hot store (src/pkg/storage/redis.go) -/

/-- A member of the history sorted set: the stored bytes either decode
(transparent gunzip, then JSON unmarshal) to an event, or fail and are
skipped by the read path. -/
inductive Payload where
  | ok (e : AggTradeEvent)
  | bad
  deriving DecidableEq, Repr

/-- The decompress-and-unmarshal step of `GetTradeHistory`'s loop. -/
def decodePayload : Payload → Option AggTradeEvent
  | .ok e => some e
  | .bad => none

/-- Redis `ZRANGEBYSCORE key min max`: the members whose score lies in
the inclusive range, in ascending order (the set is kept score-sorted). -/
def zRangeByScore (hist : List (Int × Payload)) (mn mx : Int) : List Payload :=
  (hist.filter (fun p => mn ≤ p.1 && p.1 ≤ mx)).map Prod.snd

/-- `RedisStore.GetTradeHistory`: range read, then a loop that decodes
each member and skips (logs and continues on) the ones that fail. -/
def getTradeHistory (hist : List (Int × Payload)) (startMs endMs : Int) :
    List AggTradeEvent :=
  (zRangeByScore hist startMs endMs).foldl
    (fun events trade =>
      match decodePayload trade with
      | some event => events ++ [event]
      | none => events)
    []

/-- `RedisStore.trimHistory`: drop members with score at most
`now - retention` (ZREMRANGEBYSCORE -inf .. oldest), then keep only the
`maxTradesPerKey` highest-ranked members (ZREMRANGEBYRANK 0 .. -max-1)
when the cap is positive. -/
def trimHistory (nowMs retentionMs maxTradesPerKey : Int)
    (hist : List (Int × Payload)) : List (Int × Payload) :=
  let oldestTime := nowMs - retentionMs
  let hist := hist.filter (fun p => !(p.1 ≤ oldestTime))
  if maxTradesPerKey > 0 then
    hist.drop (hist.length - maxTradesPerKey.toNat)
  else
    hist

/-! ## Cold store (src/pkg/storage/postgres.go) -/

/-- A row of `trade_candles`.  NUMERIC columns hold exact decimal
values; `timestamp` is TIMESTAMPTZ, compared as an instant. -/
structure Row where
  symbol : String
  timestamp : GoTime
  openPrice : Dec
  highPrice : Dec
  lowPrice : Dec
  closePrice : Dec
  volume : Dec
  tradeCount : Int
  deriving DecidableEq, Repr

/-- The `ON CONFLICT (symbol, timestamp) DO UPDATE` merge of
`StoreCandleData`: open and close from the incoming row, GREATEST /
LEAST for high and low, sums for volume and trade count. -/
def mergeRow (old incoming : Row) : Row :=
  { old with
    openPrice := incoming.openPrice
    highPrice := Dec.max old.highPrice incoming.highPrice
    lowPrice := Dec.min old.lowPrice incoming.lowPrice
    closePrice := incoming.closePrice
    volume := Dec.add old.volume incoming.volume
    tradeCount := old.tradeCount + incoming.tradeCount }

/-- Conflict test against the primary key `(symbol, timestamp)`;
TIMESTAMPTZ equality is instant equality. -/
def rowKeyMatches (r : Row) (symbol : String) (ts : GoTime) : Bool :=
  r.symbol = symbol && r.timestamp.ms = ts.ms

/-- `INSERT ... ON CONFLICT DO UPDATE` against the table. -/
def upsertRow : List Row → Row → List Row
  | [], r => [r]
  | r0 :: rest, r =>
    if rowKeyMatches r0 r.symbol r.timestamp then mergeRow r0 r :: rest
    else r0 :: upsertRow rest r

/-- `PostgresStore.StoreCandleData`: normalize the timestamp to UTC,
reject the zero timestamp before touching the table, then upsert.  The
string fields are parsed by Postgres as NUMERIC literals; an invalid
literal makes the statement fail, leaving the table unchanged.  Returns
the table (unchanged on error) and the error, if any. -/
def storeCandleData (symbol : String) (candle : Candle) (rows : List Row) :
    List Row × Option String :=
  let timestamp := candle.timestamp.utc
  if timestamp.isZero then
    (rows, some "invalid timestamp: zero value")
  else
    match parseDecCore candle.openPrice.data, parseDecCore candle.highPrice.data,
        parseDecCore candle.lowPrice.data, parseDecCore candle.closePrice.data,
        parseDecCore candle.volume.data with
    | some o, some h, some l, some cl, some v =>
      (upsertRow rows
        { symbol := symbol, timestamp := timestamp, openPrice := o,
          highPrice := h, lowPrice := l, closePrice := cl,
          volume := v, tradeCount := candle.tradeCount }, none)
    | _, _, _, _, _ =>
      (rows, some "failed to store candle data: invalid numeric literal")

/-! ## Migrator (src/pkg/storage/aggregator.go, performMigration) -/

/-- One hour in milliseconds. -/
def hourMs : Int := 3600000

/-- The raw-history window read by one `performMigration` run at wall
clock `now`: `end = now - 2h`, `start = end - 22h`. -/
def migrationWindow (nowMs : Int) : Int × Int :=
  let endMs := nowMs - 2 * hourMs
  (endMs - 22 * hourMs, endMs)

/-- The migrator's per-minute grouping step: truncate the trade time to
its minute, update the candle for that minute (creating it first when
absent). -/
def migGroupStep (candleMap : List (Int × Candle)) (ev : AggTradeEvent) :
    List (Int × Candle) :=
  let tradeTime := (unixMilli ev.data.tradeTime).truncMinute
  match tblLookup candleMap tradeTime.ms with
  | some candle =>
    tblInsert candleMap tradeTime.ms (updateFromTrade candle ev.data.toTrade)
  | none =>
    tblInsert candleMap tradeTime.ms
      (updateFromTrade (newCandle tradeTime) ev.data.toTrade)

/-- `performMigration`'s "group trades by minute" map-reduce. -/
def migGroup (trades : List AggTradeEvent) : List (Int × Candle) :=
  trades.foldl migGroupStep []

/-- One `performMigration` run for one symbol: read the window from the
history set, rebuild candles per minute, upsert every candle (an error
logs and continues), then trim the history by retention and cap.
Returns the cold-store table and the trimmed history. -/
def performMigrationSym (nowMs retentionMs maxTradesPerKey : Int)
    (symbol : String) (hist : List (Int × Payload)) (rows : List Row) :
    List Row × List (Int × Payload) :=
  let w := migrationWindow nowMs
  let trades := getTradeHistory hist w.1 w.2
  let candleMap := migGroup trades
  let rows := candleMap.foldl (fun acc kv => (storeCandleData symbol kv.2 acc).1) rows
  let hist := trimHistory nowMs retentionMs maxTradesPerKey hist
  (rows, hist)

/-! ## Symbol selection (src/pkg/binance/client.go, GetSymbols) -/

/-- `models.Symbol`: one entry of the exchangeInfo response. -/
structure GoSymbol where
  symbol : String
  status : String
  deriving DecidableEq, Repr

/-- The part of the configuration `GetSymbols` reads. -/
structure BinanceConfig where
  mainSymbols : List String
  maxSymbols : Int
  minDailyVolume : Dec
  deriving DecidableEq, Repr

/-- `strings.ToLower` on the scalar values (ASCII in all inputs here). -/
def goToLower (s : String) : String :=
  String.mk (s.data.map Char.toLower)

/-- `strings.HasSuffix`. -/
def goHasSuffix (s suffixStr : String) : Bool :=
  let n := s.data.length
  let m := suffixStr.data.length
  decide (m ≤ n) && decide (s.data.drop (n - m) = suffixStr.data)

/-- Membership test in the model of the `symbolMap` set. -/
def listHasStr : List String → String → Bool
  | [], _ => false
  | x :: rest, s => if x = s then true else listHasStr rest s

/-- Set insertion for the `symbolMap` model (Go: `symbolMap[s] = true`).
Go's map has unspecified iteration order; the model keeps first-insert
order, and theorems use only membership and length. -/
def setInsert (l : List String) (s : String) : List String :=
  if listHasStr l s then l else l ++ [s]

/-- The additional-symbols loop of `GetSymbols`: walk exchangeInfo in
order, skip non-USDT / non-TRADING / already-present symbols, apply the
volume filter when `MinDailyVolume > 0`, stop at `MaxSymbols`. -/
def addExtraSymbols (cfg : BinanceConfig) (volData : List (String × Dec)) :
    List GoSymbol → List String → List String
  | [], acc => acc
  | sym :: rest, acc =>
    let symbol := goToLower sym.symbol
    if listHasStr acc symbol || !goHasSuffix symbol "usdt" || sym.status ≠ "TRADING" then
      addExtraSymbols cfg volData rest acc
    else if Dec.lt Dec.zero cfg.minDailyVolume &&
        (match tblLookup volData symbol with
         | none => true
         | some volume => Dec.lt volume cfg.minDailyVolume) then
      addExtraSymbols cfg volData rest acc
    else if (acc.length : Int) < cfg.maxSymbols then
      addExtraSymbols cfg volData rest (acc ++ [symbol])
    else
      acc

deriving instance DecidableEq for Except

/-- Result of `Client.GetSymbols`, together with whether the exchange
metadata endpoints were consulted (the HTTP fetches are modelled by the
`exInfo` / `volData` arguments; fetch transport errors are not part of
the modelled behaviour). -/
structure SymbolsOutcome where
  fetchedExchangeInfo : Bool
  result : Except String (List String)
  deriving DecidableEq, Repr

/-- `Client.GetSymbols`. -/
def getSymbols (cfg : BinanceConfig) (exInfo : List GoSymbol)
    (volData : List (String × Dec)) : SymbolsOutcome :=
  -- "If main symbols are configured and no additional symbols are allowed"
  if 0 < cfg.mainSymbols.length && cfg.maxSymbols ≤ (cfg.mainSymbols.length : Int) then
    { fetchedExchangeInfo := false
      result := .ok (cfg.mainSymbols.map goToLower) }
  else
    -- fetchExchangeInfo, then fetch24hVolume when MinDailyVolume > 0
    let symbolMap := cfg.mainSymbols.foldl (fun acc s => setInsert acc (goToLower s)) []
    let remainingSlots := cfg.maxSymbols - (symbolMap.length : Int)
    let symbolMap :=
      if 0 < remainingSlots then addExtraSymbols cfg volData exInfo symbolMap
      else symbolMap
    if symbolMap.length = 0 then
      { fetchedExchangeInfo := true, result := .error "no trading pairs found" }
    else
      { fetchedExchangeInfo := true, result := .ok symbolMap }

/-! ## Per-frame sinks (src/pkg/processor/service.go, src/pkg/binance/client.go) -/

/-- The sinks a trade frame can be handed to. -/
inductive SinkCall where
  | storeTrade
  | storeRawTrade
  | processTrade
  deriving DecidableEq, Repr

/-- Outcome environment: whether each sink call would return an error. -/
structure SinkOutcome where
  storeTradeErr : Bool
  storeRawTradeErr : Bool
  processTradeErr : Bool
  deriving DecidableEq, Repr

/-- `processor.Service.handleTrade` as a call trace: each sink error is
only logged (`log.Printf`) and execution falls through to the next sink;
the handler itself returns nil. -/
def handleTradeCalls (o : SinkOutcome) : List SinkCall × Option String :=
  let trace := [SinkCall.storeTrade]
  -- if err := s.redisStore.StoreTrade(...); err != nil { log.Printf(...) }
  let trace := trace ++ [SinkCall.storeRawTrade]
  -- if err := s.redisStore.StoreRawTrade(...); err != nil { log.Printf(...) }
  let trace := trace ++ [SinkCall.processTrade]
  -- if err := s.aggregator.ProcessTrade(...); err != nil { log.Printf(...) }
  (trace, none)

/-- `binance.Client.processMessage` as a call trace: a failing
`StoreTrade` returns the wrapped error at once, so `StoreRawTrade` is
never reached for that frame; the aggregator is not a sink of this
path at all. -/
def processMessageCalls (o : SinkOutcome) : List SinkCall × Option String :=
  let trace := [SinkCall.storeTrade]
  if o.storeTradeErr then
    (trace, some "failed to store trade")
  else
    let trace := trace ++ [SinkCall.storeRawTrade]
    if o.storeRawTradeErr then
      (trace, some "failed to store raw trade")
    else
      (trace, none)

/-! ## Helper lemmas -/

theorem Dec.lt_self (a : Dec) : Dec.lt a a = false := by
  simp [Dec.lt]

theorem Dec.max_self (a : Dec) : Dec.max a a = a := by
  simp [Dec.max]

theorem Dec.min_self (a : Dec) : Dec.min a a = a := by
  simp [Dec.min]

theorem listHasStr_iff_mem : ∀ (l : List String) (s : String), listHasStr l s = true ↔ s ∈ l
  | [], s => by simp [listHasStr]
  | x :: rest, s => by
    by_cases h : x = s
    · subst h; simp [listHasStr]
    · simp [listHasStr, h, listHasStr_iff_mem rest s, Ne.symm h]

theorem mem_setInsert_of_mem (l : List String) (y x : String) (h : x ∈ l) :
    x ∈ setInsert l y := by
  unfold setInsert
  split
  · exact h
  · exact List.mem_append_left _ h

theorem mem_setInsert_self (l : List String) (s : String) : s ∈ setInsert l s := by
  unfold setInsert
  split
  · next h => exact (listHasStr_iff_mem l s).mp h
  · exact List.mem_append_right _ (List.mem_singleton.mpr rfl)

theorem mem_foldl_setInsert_of_mem :
    ∀ (mains acc : List String) (x : String), x ∈ acc →
      x ∈ mains.foldl (fun a s => setInsert a (goToLower s)) acc
  | [], _, _, h => h
  | _ :: rest, acc, x, h =>
    mem_foldl_setInsert_of_mem rest _ x (mem_setInsert_of_mem acc _ x h)

theorem mem_foldl_setInsert :
    ∀ (mains acc : List String) (s : String), s ∈ mains →
      goToLower s ∈ mains.foldl (fun a t => setInsert a (goToLower t)) acc
  | [], _, s, h => absurd h (List.not_mem_nil s)
  | m :: rest, acc, s, h => by
    rcases List.mem_cons.mp h with h1 | h2
    · subst h1
      exact mem_foldl_setInsert_of_mem rest _ _ (mem_setInsert_self acc (goToLower s))
    · exact mem_foldl_setInsert rest _ s h2

theorem mem_addExtraSymbols_of_mem (cfg : BinanceConfig) (vol : List (String × Dec)) :
    ∀ (l : List GoSymbol) (acc : List String) (x : String), x ∈ acc →
      x ∈ addExtraSymbols cfg vol l acc
  | [], _, _, h => h
  | sym :: rest, acc, x, h => by
    have ih1 := mem_addExtraSymbols_of_mem cfg vol rest acc x h
    have ih2 := mem_addExtraSymbols_of_mem cfg vol rest (acc ++ [goToLower sym.symbol]) x
      (List.mem_append_left _ h)
    simp only [addExtraSymbols]
    split
    · exact ih1
    · split
      · exact ih1
      · split
        · exact ih2
        · exact h

/-! ## Claim theorems -/

/-- C1: the claim says `Candle.UpdateFromTrade` keeps
`low ≤ open ≤ high` and `low ≤ close ≤ high` numerically, with
`HighPrice` the numeric maximum and `LowPrice` the numeric minimum of
the trade prices, i.e. that prices are compared as decimal values.  The
source compares the raw strings with Go string ordering; evaluating the
update sequence at the valid decimal prices "1000" then "9" yields
`HighPrice = "9"` and `LowPrice = "1000"` — the lexicographic, not the
numeric, extremes — so numerically `high < open`, `low > close`, and the
claimed invariant fails.  This contradicts the spec's stated invariant
for persisted candles (§8) and its decimal-comparison requirement (§9),
so the code, not the claim, is at fault. -/
theorem c1_string_price_comparison_breaks_ohlc_invariant :
    (let t1 : Trade :=
       { symbol := "BTCUSDT", price := "1000", quantity := "1",
         tradeID := 1, time := unixMilli 1704110430000,
         eventTime := unixMilli 1704110430000, isBuyerMaker := false }
     let t2 : Trade :=
       { symbol := "BTCUSDT", price := "9", quantity := "1",
         tradeID := 2, time := unixMilli 1704110440000,
         eventTime := unixMilli 1704110440000, isBuyerMaker := false }
     let c := updateFromTrade (updateFromTrade
        (newCandle (unixMilli 1704110430000).truncMinute) t1) t2
     (parseDecCore "1000".data).isSome = true ∧
     (parseDecCore "9".data).isSome = true ∧
     c.openPrice = "1000" ∧ c.highPrice = "9" ∧
     c.lowPrice = "1000" ∧ c.closePrice = "9" ∧
     Dec.lt (parseDec c.highPrice) (parseDec c.openPrice) = true ∧
     Dec.lt (parseDec c.closePrice) (parseDec c.lowPrice) = true ∧
     Dec.le (parseDec c.openPrice) (parseDec c.highPrice) = false ∧
     Dec.le (parseDec c.lowPrice) (parseDec c.closePrice) = false) := by
  decide

/-- C9 (counterexample): in `binance.Client.processMessage` — one of the
two frame handlers the claim covers — a failing `StoreTrade` makes the
handler return at once, so `StoreRawTrade` is never invoked for that
frame (and this path has no aggregator sink at all): the hot-store
writes are not both attempted when the first one errors. -/
theorem c9_counterexample_processMessage_early_return :
    processMessageCalls
        { storeTradeErr := true, storeRawTradeErr := false, processTradeErr := false } =
      ([SinkCall.storeTrade], some "failed to store trade") ∧
    (processMessageCalls
        { storeTradeErr := true, storeRawTradeErr := false, processTradeErr := false }).1.contains
      SinkCall.storeRawTrade = false ∧
    (processMessageCalls
        { storeTradeErr := true, storeRawTradeErr := false, processTradeErr := false }).1.contains
      SinkCall.processTrade = false := by
  decide

/-- C9 (amended): in `processor.Service.handleTrade` — the message-bus
frame path actually wired in cmd/streamer — every inbound frame is
handed to all three sinks (`StoreTrade`, `StoreRawTrade`,
`ProcessTrade`) in order, whatever errors the individual sinks return:
each error is only logged and execution falls through. -/
theorem c9_handleTrade_attempts_all_sinks (o : SinkOutcome) :
    handleTradeCalls o =
      ([SinkCall.storeTrade, SinkCall.storeRawTrade, SinkCall.processTrade], none) := by
  rfl

/-- C8 (counterexample): with `MainSymbols = [BTCUSDT, ETHUSDT, BNBUSDT]`
and `MaxSymbols = 2` the guard `MaxSymbols ≤ len(MainSymbols)` holds,
and `GetSymbols` returns all three lowercased priority symbols: the
result has 3 > MaxSymbols entries, so the claimed truncation to the cap
does not happen. -/
theorem c8_counterexample_no_truncation :
    (getSymbols
        { mainSymbols := ["BTCUSDT", "ETHUSDT", "BNBUSDT"], maxSymbols := 2,
          minDailyVolume := Dec.zero } [] []).result =
      Except.ok ["btcusdt", "ethusdt", "bnbusdt"] ∧
    2 < (["btcusdt", "ethusdt", "bnbusdt"] : List String).length := by
  decide

/-- C8 (amended): whenever `MainSymbols` is non-empty and
`MaxSymbols ≤ len(MainSymbols)`, `GetSymbols` returns the whole
lowercased priority list, NOT truncated: the result always has exactly
`len(MainSymbols)` entries, which can exceed `MaxSymbols`. -/
theorem c8_priority_list_returned_whole (cfg : BinanceConfig)
    (exInfo : List GoSymbol) (volData : List (String × Dec))
    (h1 : cfg.mainSymbols ≠ [])
    (h2 : cfg.maxSymbols ≤ (cfg.mainSymbols.length : Int)) :
    (getSymbols cfg exInfo volData).result = .ok (cfg.mainSymbols.map goToLower) ∧
    (cfg.mainSymbols.map goToLower).length = cfg.mainSymbols.length := by
  have hpos : 0 < cfg.mainSymbols.length := List.length_pos.mpr h1
  refine ⟨?_, by simp⟩
  simp [getSymbols, hpos, h2]

/-- Witness for the C8 theorem at a concrete configuration. -/
theorem c8_priority_list_returned_whole_witness :
    (getSymbols
        { mainSymbols := ["BTCUSDT", "ETHUSDT", "BNBUSDT"], maxSymbols := 2,
          minDailyVolume := Dec.zero } [] []).result =
      Except.ok (["BTCUSDT", "ETHUSDT", "BNBUSDT"].map goToLower) :=
  (c8_priority_list_returned_whole
    { mainSymbols := ["BTCUSDT", "ETHUSDT", "BNBUSDT"], maxSymbols := 2,
      minDailyVolume := Dec.zero } [] [] (by decide) (by decide)).1

/-- C10 (counterexample): the claim quantifies over every configuration
with `MaxSymbols ≤ len(MainSymbols)`; with an empty priority list and
`MaxSymbols = 0` that bound holds, yet the guard
`len(MainSymbols) > 0 && MaxSymbols <= len(MainSymbols)` fails and
`GetSymbols` does consult the exchange metadata endpoint. -/
theorem c10_counterexample_empty_priority_list_fetches :
    (({ mainSymbols := [], maxSymbols := 0, minDailyVolume := Dec.zero } : BinanceConfig).maxSymbols ≤
      (({ mainSymbols := [], maxSymbols := 0, minDailyVolume := Dec.zero } : BinanceConfig).mainSymbols.length : Int)) ∧
    (getSymbols { mainSymbols := [], maxSymbols := 0, minDailyVolume := Dec.zero }
        [{ symbol := "BTCUSDT", status := "TRADING" }] []).fetchedExchangeInfo = true := by
  decide

/-- C10 (amended): every configured `MainSymbols` entry is included,
lowercased, in any symbol list `GetSymbols` returns — priority symbols
are never filtered by TRADING status, quote-asset suffix or the volume
threshold — and when the priority list is NON-EMPTY and
`MaxSymbols ≤ len(MainSymbols)` the exchange metadata endpoints are not
consulted at all (the non-emptiness condition is what the original
claim omitted). -/
theorem c10_priority_symbols_unfiltered (cfg : BinanceConfig)
    (exInfo : List GoSymbol) (volData : List (String × Dec)) :
    (cfg.mainSymbols ≠ [] → cfg.maxSymbols ≤ (cfg.mainSymbols.length : Int) →
      (getSymbols cfg exInfo volData).fetchedExchangeInfo = false) ∧
    (∀ s ∈ cfg.mainSymbols, ∀ l,
      (getSymbols cfg exInfo volData).result = Except.ok l → goToLower s ∈ l) := by
  constructor
  · intro h1 h2
    have hpos : 0 < cfg.mainSymbols.length := List.length_pos.mpr h1
    simp [getSymbols, hpos, h2]
  · intro s hs l hl
    rw [getSymbols] at hl
    split at hl
    · simp only [Except.ok.injEq] at hl
      subst hl
      exact List.mem_map_of_mem goToLower hs
    · simp only at hl
      split at hl
      · -- remaining slots are positive: the set is extended by the loop
        split at hl
        · simp at hl
        · simp only [Except.ok.injEq] at hl
          subst hl
          exact mem_addExtraSymbols_of_mem cfg volData exInfo _ _
            (mem_foldl_setInsert cfg.mainSymbols [] s hs)
      · -- no remaining slots: the set is just the seeded priority symbols
        split at hl
        · simp at hl
        · simp only [Except.ok.injEq] at hl
          subst hl
          exact mem_foldl_setInsert cfg.mainSymbols [] s hs

/-- Witness for the C10 theorem at a concrete configuration. -/
theorem c10_priority_symbols_unfiltered_witness :
    (getSymbols
        { mainSymbols := ["BTCUSDT", "ETHUSDT"], maxSymbols := 2,
          minDailyVolume := Dec.zero } [] []).fetchedExchangeInfo = false ∧
    goToLower "BTCUSDT" ∈ ["btcusdt", "ethusdt"] :=
  ⟨(c10_priority_symbols_unfiltered
      { mainSymbols := ["BTCUSDT", "ETHUSDT"], maxSymbols := 2,
        minDailyVolume := Dec.zero } [] []).1 (by decide) (by decide),
   (c10_priority_symbols_unfiltered
      { mainSymbols := ["BTCUSDT", "ETHUSDT"], maxSymbols := 2,
        minDailyVolume := Dec.zero } [] []).2 "BTCUSDT" (by decide)
      ["btcusdt", "ethusdt"] (by decide)⟩

theorem flushCandles_spec_aux (storeOk : String → Candle → Bool) (cur : Int) :
    ∀ (table : List (AggKey × Candle)) (r : List (AggKey × Candle))
      (f a : List (String × Candle)),
      table.foldl (flushStep storeOk cur) (r, f, a) =
        (r ++ table.filter
            (fun kv => !(decide ((kv.2.timestamp.utc).ms < cur) && storeOk kv.1.1 kv.2)),
         f ++ (table.filter
            (fun kv => decide ((kv.2.timestamp.utc).ms < cur) && storeOk kv.1.1 kv.2)).map
              (fun kv => (kv.1.1, kv.2)),
         a ++ (table.filter
            (fun kv => decide ((kv.2.timestamp.utc).ms < cur))).map
              (fun kv => (kv.1.1, kv.2)))
  | [], r, f, a => by simp
  | kv :: rest, r, f, a => by
    by_cases h1 : (kv.2.timestamp.utc).ms < cur
    · by_cases h2 : storeOk kv.1.1 kv.2 = true
      · simpa [flushStep, h1, h2] using
          flushCandles_spec_aux storeOk cur rest r
            (f ++ [(kv.1.1, kv.2)]) (a ++ [(kv.1.1, kv.2)])
      · simpa [flushStep, h1, h2] using
          flushCandles_spec_aux storeOk cur rest (r ++ [kv]) f (a ++ [(kv.1.1, kv.2)])
    · simpa [flushStep, h1] using
        flushCandles_spec_aux storeOk cur rest (r ++ [kv]) f a

/-- C3: one flush tick keeps in the table exactly the candles that are
not (strictly before the current UTC minute AND successfully stored);
it successfully writes exactly the strictly-before candles whose
cold-store call succeeds, and attempts exactly the strictly-before
candles.  In particular a candle whose timestamp equals `currentMinute`
is never attempted and stays in the table, and a strictly-before candle
whose write fails stays in the table for the next tick. -/
theorem c3_flushCandles_exactly_closed_minutes (storeOk : String → Candle → Bool)
    (currentMinute : Int) (table : List (AggKey × Candle)) :
    flushCandles storeOk currentMinute table =
      (table.filter
         (fun kv => !(decide ((kv.2.timestamp.utc).ms < currentMinute) && storeOk kv.1.1 kv.2)),
       (table.filter
         (fun kv => decide ((kv.2.timestamp.utc).ms < currentMinute) && storeOk kv.1.1 kv.2)).map
           (fun kv => (kv.1.1, kv.2)),
       (table.filter
         (fun kv => decide ((kv.2.timestamp.utc).ms < currentMinute))).map
           (fun kv => (kv.1.1, kv.2))) := by
  simpa [flushCandles] using flushCandles_spec_aux storeOk currentMinute table [] [] []

/-- C5: re-applying `StoreCandleData` with a candle identical to the
already-stored row for the same (symbol, timestamp) leaves open, high,
low and close unchanged (GREATEST/LEAST of equal values, and open/close
taken from the incoming row with the same values) while volume and
trade_count are added, becoming twice the original. -/
theorem c5_merge_idempotent_ohlc_additive_volume (symbol : String) (candle : Candle)
    (o h l cl v : Dec)
    (ho : parseDecCore candle.openPrice.data = some o)
    (hh : parseDecCore candle.highPrice.data = some h)
    (hl : parseDecCore candle.lowPrice.data = some l)
    (hc : parseDecCore candle.closePrice.data = some cl)
    (hv : parseDecCore candle.volume.data = some v)
    (hts : candle.timestamp.utc.isZero = false) :
    storeCandleData symbol candle [] =
      ([{ symbol := symbol, timestamp := candle.timestamp.utc, openPrice := o,
          highPrice := h, lowPrice := l, closePrice := cl, volume := v,
          tradeCount := candle.tradeCount }], none) ∧
    storeCandleData symbol candle
        [{ symbol := symbol, timestamp := candle.timestamp.utc, openPrice := o,
           highPrice := h, lowPrice := l, closePrice := cl, volume := v,
           tradeCount := candle.tradeCount }] =
      ([{ symbol := symbol, timestamp := candle.timestamp.utc, openPrice := o,
          highPrice := h, lowPrice := l, closePrice := cl,
          volume := Dec.add v v,
          tradeCount := candle.tradeCount + candle.tradeCount }], none) := by
  constructor
  · simp [storeCandleData, hts, ho, hh, hl, hc, hv, upsertRow]
  · simp [storeCandleData, hts, ho, hh, hl, hc, hv, upsertRow, rowKeyMatches, mergeRow,
      Dec.max_self, Dec.min_self]

/-- Witness for the C5 theorem at a concrete candle. -/
theorem c5_merge_idempotent_witness :
    storeCandleData "BTCUSDT"
        { timestamp := unixMilli 1704114000000, openPrice := "100", highPrice := "120",
          lowPrice := "90", closePrice := "115", volume := "3.5", tradeCount := 5 }
        [{ symbol := "BTCUSDT", timestamp := (unixMilli 1704114000000).utc,
           openPrice := { num := 100, exp := 0 }, highPrice := { num := 120, exp := 0 },
           lowPrice := { num := 90, exp := 0 }, closePrice := { num := 115, exp := 0 },
           volume := { num := 35, exp := 1 }, tradeCount := 5 }] =
      ([{ symbol := "BTCUSDT", timestamp := (unixMilli 1704114000000).utc,
          openPrice := { num := 100, exp := 0 }, highPrice := { num := 120, exp := 0 },
          lowPrice := { num := 90, exp := 0 }, closePrice := { num := 115, exp := 0 },
          volume := Dec.add { num := 35, exp := 1 } { num := 35, exp := 1 },
          tradeCount := 5 + 5 }], none) :=
  (c5_merge_idempotent_ohlc_additive_volume "BTCUSDT"
    { timestamp := unixMilli 1704114000000, openPrice := "100", highPrice := "120",
      lowPrice := "90", closePrice := "115", volume := "3.5", tradeCount := 5 }
    { num := 100, exp := 0 } { num := 120, exp := 0 } { num := 90, exp := 0 }
    { num := 115, exp := 0 } { num := 35, exp := 1 }
    (by decide) (by decide) (by decide) (by decide) (by decide) (by decide)).2

/-- C6: `StoreCandleData` rejects a candle whose (UTC-normalized)
timestamp is the zero value, returning an error with the table
untouched; every accepted candle is written with its timestamp
normalized to UTC. -/
theorem c6_zero_timestamp_rejected_utc_normalized (symbol : String) (candle : Candle)
    (rows : List Row) :
    (candle.timestamp.utc.isZero = true →
      storeCandleData symbol candle rows = (rows, some "invalid timestamp: zero value")) ∧
    (∀ o h l cl v : Dec,
      parseDecCore candle.openPrice.data = some o →
      parseDecCore candle.highPrice.data = some h →
      parseDecCore candle.lowPrice.data = some l →
      parseDecCore candle.closePrice.data = some cl →
      parseDecCore candle.volume.data = some v →
      candle.timestamp.utc.isZero = false →
      storeCandleData symbol candle rows =
        (upsertRow rows
          { symbol := symbol, timestamp := candle.timestamp.utc, openPrice := o,
            highPrice := h, lowPrice := l, closePrice := cl, volume := v,
            tradeCount := candle.tradeCount }, none) ∧
        (candle.timestamp.utc).isUTC = true) := by
  constructor
  · intro hz
    simp [storeCandleData, hz]
  · intro o h l cl v ho hh hl hc hv hz
    exact ⟨by simp [storeCandleData, hz, ho, hh, hl, hc, hv], rfl⟩

/-- Witness for the C6 theorem: a zero-timestamp candle is rejected with
the table unchanged, and a concrete accepted candle is written with a
UTC timestamp. -/
theorem c6_zero_timestamp_witness :
    storeCandleData "BTCUSDT"
        { timestamp := unixMilli goZeroMs, openPrice := "100", highPrice := "100",
          lowPrice := "100", closePrice := "100", volume := "1", tradeCount := 1 } [] =
      ([], some "invalid timestamp: zero value") ∧
    (storeCandleData "BTCUSDT"
        { timestamp := unixMilli 1704114000000, openPrice := "100", highPrice := "100",
          lowPrice := "100", closePrice := "100", volume := "1", tradeCount := 1 } [] =
      (upsertRow []
        { symbol := "BTCUSDT", timestamp := (unixMilli 1704114000000).utc,
          openPrice := { num := 100, exp := 0 }, highPrice := { num := 100, exp := 0 },
          lowPrice := { num := 100, exp := 0 }, closePrice := { num := 100, exp := 0 },
          volume := { num := 1, exp := 0 }, tradeCount := 1 }, none) ∧
      ((unixMilli 1704114000000).utc).isUTC = true) :=
  ⟨(c6_zero_timestamp_rejected_utc_normalized "BTCUSDT"
      { timestamp := unixMilli goZeroMs, openPrice := "100", highPrice := "100",
        lowPrice := "100", closePrice := "100", volume := "1", tradeCount := 1 } []).1
      (by decide),
   (c6_zero_timestamp_rejected_utc_normalized "BTCUSDT"
      { timestamp := unixMilli 1704114000000, openPrice := "100", highPrice := "100",
        lowPrice := "100", closePrice := "100", volume := "1", tradeCount := 1 } []).2
      { num := 100, exp := 0 } { num := 100, exp := 0 } { num := 100, exp := 0 }
      { num := 100, exp := 0 } { num := 1, exp := 0 }
      (by decide) (by decide) (by decide) (by decide) (by decide) (by decide)⟩

theorem tblLookup_insert_self {K V : Type} [DecidableEq K] :
    ∀ (t : List (K × V)) (k : K) (v : V), tblLookup (tblInsert t k v) k = some v
  | [], k, v => by simp [tblInsert, tblLookup]
  | (k0, w) :: rest, k, v => by
    by_cases h : k0 = k
    · simp [tblInsert, tblLookup, h]
    · simp [tblInsert, tblLookup, h, tblLookup_insert_self rest k v]

theorem aggTradeEvent_toTrade_eq (e : AggTradeEvent) : e.toTrade = e.data.toTrade :=
  rfl

theorem aggFold_lookup (s : String) (m : Int) :
    ∀ (evs : List AggTradeEvent) (table : List (AggKey × Candle)) (c : Candle),
      (∀ e ∈ evs, e.data.symbol = s) →
      (∀ e ∈ evs, truncMinuteMs e.data.tradeTime = m) →
      tblLookup table (s, m) = some c →
      tblLookup (evs.foldl (fun t e => processTrade t e.toTrade) table) (s, m) =
        some (evs.foldl (fun acc e => updateFromTrade acc e.data.toTrade) c)
  | [], _, _, _, _, hc => hc
  | e :: rest, table, c, hs, hm, hc => by
    have hsym : e.data.symbol = s := hs e (List.mem_cons_self e rest)
    have hmin : truncMinuteMs e.data.tradeTime = m := hm e (List.mem_cons_self e rest)
    have hstep : processTrade table e.toTrade =
        tblInsert table (s, m) (updateFromTrade c e.data.toTrade) := by
      simp [processTrade, AggTradeEvent.toTrade, TradeData.toTrade, GoTime.truncMinute,
        unixMilli, hsym, hmin, hc]
    rw [List.foldl_cons, hstep, List.foldl_cons]
    exact aggFold_lookup s m rest _ _
      (fun x hx => hs x (List.mem_cons_of_mem _ hx))
      (fun x hx => hm x (List.mem_cons_of_mem _ hx))
      (tblLookup_insert_self table (s, m) _)

theorem migFold_lookup (m : Int) :
    ∀ (evs : List AggTradeEvent) (cm : List (Int × Candle)) (c : Candle),
      (∀ e ∈ evs, truncMinuteMs e.data.tradeTime = m) →
      tblLookup cm m = some c →
      tblLookup (evs.foldl migGroupStep cm) m =
        some (evs.foldl (fun acc e => updateFromTrade acc e.data.toTrade) c)
  | [], _, _, _, hc => hc
  | e :: rest, cm, c, hm, hc => by
    have hmin : truncMinuteMs e.data.tradeTime = m := hm e (List.mem_cons_self e rest)
    have hstep : migGroupStep cm e =
        tblInsert cm m (updateFromTrade c e.data.toTrade) := by
      simp [migGroupStep, GoTime.truncMinute, unixMilli, hmin, hc]
    rw [List.foldl_cons, hstep, List.foldl_cons]
    exact migFold_lookup m rest _ _
      (fun x hx => hm x (List.mem_cons_of_mem _ hx))
      (tblLookup_insert_self cm m _)

/-- C4: for one symbol and one minute, folding the aggregator's
`ProcessTrade` over a non-empty batch of trade events (as the processor
hands them over, via `AggTradeEvent.ToTrade`) produces, at the
aggregator's (symbol, minute) key, exactly the candle the migrator's
per-minute grouping produces at that minute for the same events in the
same order — field for field, including the string OHLC fields, the
volume string and the trade count.  Both equal the plain fold of
`UpdateFromTrade` from `NewCandle` of that minute. -/
theorem c4_aggregator_migrator_equivalent (evs : List AggTradeEvent) (s : String)
    (m : Int) (hne : evs ≠ [])
    (hs : ∀ e ∈ evs, e.data.symbol = s)
    (hm : ∀ e ∈ evs, truncMinuteMs e.data.tradeTime = m) :
    tblLookup (evs.foldl (fun t e => processTrade t e.toTrade) []) (s, m) =
      tblLookup (migGroup evs) m ∧
    tblLookup (migGroup evs) m =
      some (evs.foldl (fun acc e => updateFromTrade acc e.data.toTrade)
        (newCandle (unixMilli m))) := by
  match evs, hne with
  | e0 :: rest, _ =>
    have hsym : e0.data.symbol = s := hs e0 (List.mem_cons_self e0 rest)
    have hmin : truncMinuteMs e0.data.tradeTime = m := hm e0 (List.mem_cons_self e0 rest)
    have hrs : ∀ e ∈ rest, e.data.symbol = s :=
      fun x hx => hs x (List.mem_cons_of_mem _ hx)
    have hrm : ∀ e ∈ rest, truncMinuteMs e.data.tradeTime = m :=
      fun x hx => hm x (List.mem_cons_of_mem _ hx)
    have hstep1 : processTrade [] e0.toTrade =
        tblInsert [] (s, m) (updateFromTrade (newCandle (unixMilli m)) e0.data.toTrade) := by
      simp [processTrade, AggTradeEvent.toTrade, TradeData.toTrade, GoTime.truncMinute,
        unixMilli, tblLookup, hsym, hmin]
    have hstep2 : migGroupStep [] e0 =
        tblInsert [] m (updateFromTrade (newCandle (unixMilli m)) e0.data.toTrade) := by
      simp [migGroupStep, newCandle, GoTime.truncMinute, unixMilli, tblLookup, hmin]
    have h1 := aggFold_lookup s m rest _ _ hrs hrm
      (tblLookup_insert_self ([] : List (AggKey × Candle)) (s, m)
        (updateFromTrade (newCandle (unixMilli m)) e0.data.toTrade))
    have h2 := migFold_lookup m rest _ _ hrm
      (tblLookup_insert_self ([] : List (Int × Candle)) m
        (updateFromTrade (newCandle (unixMilli m)) e0.data.toTrade))
    refine ⟨?_, ?_⟩
    · rw [List.foldl_cons, hstep1, h1, migGroup, List.foldl_cons, hstep2, h2]
    · rw [migGroup, List.foldl_cons, hstep2, h2, List.foldl_cons]

/-- Witness for the C4 theorem on a concrete two-trade batch in one
minute. -/
theorem c4_aggregator_migrator_witness :
    (let e1 : AggTradeEvent :=
       { stream := "btcusdt@trade",
         data := { eventType := "trade", eventTime := 1704110430000, symbol := "BTCUSDT",
                   tradeID := 1, price := "50000.00", quantity := "1.5",
                   buyerOrderID := 0, sellerOrderID := 0,
                   tradeTime := 1704110430000, isBuyerMaker := false } }
     let e2 : AggTradeEvent :=
       { stream := "btcusdt@trade",
         data := { eventType := "trade", eventTime := 1704110450000, symbol := "BTCUSDT",
                   tradeID := 2, price := "50100", quantity := "2",
                   buyerOrderID := 0, sellerOrderID := 0,
                   tradeTime := 1704110450000, isBuyerMaker := true } }
     tblLookup ([e1, e2].foldl (fun t e => processTrade t e.toTrade) [])
         ("BTCUSDT", 1704110400000) =
       tblLookup (migGroup [e1, e2]) 1704110400000) :=
  (c4_aggregator_migrator_equivalent _ "BTCUSDT" 1704110400000
    (by decide) (by decide) (by decide)).1

/-- C7 (counterexample): two history entries carrying the same trade id
42 are both returned by `GetTradeHistory` — duplicates are not removed
(the deduplication, the 1000-entry cap and the reversal exist only in a
superseded revision of this function). -/
theorem c7_counterexample_duplicate_ids_not_removed :
    (let e1 : AggTradeEvent :=
       { stream := "btcusdt@trade",
         data := { eventType := "trade", eventTime := 1000, symbol := "BTCUSDT",
                   tradeID := 42, price := "100", quantity := "1",
                   buyerOrderID := 0, sellerOrderID := 0,
                   tradeTime := 1000, isBuyerMaker := false } }
     let e2 : AggTradeEvent :=
       { stream := "btcusdt@trade",
         data := { eventType := "trade", eventTime := 2000, symbol := "BTCUSDT",
                   tradeID := 42, price := "101", quantity := "2",
                   buyerOrderID := 0, sellerOrderID := 0,
                   tradeTime := 2000, isBuyerMaker := false } }
     getTradeHistory [(1000, Payload.ok e1), (2000, Payload.ok e2)] 0 3000 = [e1, e2] ∧
     e1.data.tradeID = e2.data.tradeID ∧ e1 ≠ e2) := by
  decide

theorem decodePayload_eq_some {p : Payload} {e : AggTradeEvent}
    (h : decodePayload p = some e) : p = Payload.ok e := by
  cases p with
  | ok x =>
    have hx : x = e := Option.some.inj h
    rw [hx]
  | bad => simp [decodePayload] at h

theorem getTradeHistory_go :
    ∀ (l : List Payload) (acc : List AggTradeEvent),
      l.foldl
        (fun events trade =>
          match decodePayload trade with
          | some event => events ++ [event]
          | none => events) acc = acc ++ l.filterMap decodePayload
  | [], acc => by simp
  | p :: rest, acc => by
    cases hp : decodePayload p <;>
      simp [List.foldl_cons, hp, getTradeHistory_go rest, List.filterMap_cons]

theorem getTradeHistory_eq (hist : List (Int × Payload)) (startMs endMs : Int) :
    getTradeHistory hist startMs endMs =
      (hist.filter (fun p => decide (startMs ≤ p.1) && decide (p.1 ≤ endMs))).filterMap
        (fun p => decodePayload p.2) := by
  rw [getTradeHistory, zRangeByScore, getTradeHistory_go, List.filterMap_map]
  rfl

theorem pairwise_tradeTime_filterMap :
    ∀ l : List (Int × Payload),
      l.Pairwise (fun p q => p.1 ≤ q.1) →
      (∀ p ∈ l, ∀ e, p.2 = Payload.ok e → e.data.tradeTime = p.1) →
      (l.filterMap (fun p => decodePayload p.2)).Pairwise
        (fun a b => a.data.tradeTime ≤ b.data.tradeTime)
  | [], _, _ => List.Pairwise.nil
  | p :: rest, hp, hsc => by
    have hrest := pairwise_tradeTime_filterMap rest (List.pairwise_cons.mp hp).2
      (fun q hq => hsc q (List.mem_cons_of_mem _ hq))
    cases hpd : decodePayload p.2 with
    | none => simpa [List.filterMap_cons, hpd] using hrest
    | some e =>
      rw [List.filterMap_cons, hpd]
      refine List.pairwise_cons.mpr ⟨?_, hrest⟩
      intro b hb
      obtain ⟨q, hq, hqd⟩ := List.mem_filterMap.mp hb
      have hpq : p.1 ≤ q.1 := (List.pairwise_cons.mp hp).1 q hq
      have he : e.data.tradeTime = p.1 :=
        hsc p (List.mem_cons_self p rest) e (decodePayload_eq_some hpd)
      have hbq : b.data.tradeTime = q.1 :=
        hsc q (List.mem_cons_of_mem _ hq) b (decodePayload_eq_some hqd)
      rw [he, hbq]
      exact hpq

/-- C7 (amended): over a score-sorted history whose decodable members
carry their trade time as score — the invariant `StoreTrade` and
`StoreRawTrade` maintain — `GetTradeHistory` returns exactly the
decodable members whose score lies in `[start, end]` (undecodable
entries are skipped), in ascending trade-time order, and every returned
trade time lies in the range.  No duplicate-id removal, no 1000-entry
cap and no reversal take place (the claim's dedup/cap text describes a
superseded revision; the current read is a plain ascending range
scan). -/
theorem c7_history_range_ascending_no_dedup (hist : List (Int × Payload))
    (startMs endMs : Int)
    (hsorted : hist.Pairwise (fun p q => p.1 ≤ q.1))
    (hscore : ∀ p ∈ hist, ∀ e, p.2 = Payload.ok e → e.data.tradeTime = p.1) :
    getTradeHistory hist startMs endMs =
      (hist.filter (fun p => decide (startMs ≤ p.1) && decide (p.1 ≤ endMs))).filterMap
        (fun p => decodePayload p.2) ∧
    (getTradeHistory hist startMs endMs).Pairwise
      (fun a b => a.data.tradeTime ≤ b.data.tradeTime) ∧
    (∀ e ∈ getTradeHistory hist startMs endMs,
      startMs ≤ e.data.tradeTime ∧ e.data.tradeTime ≤ endMs) := by
  refine ⟨getTradeHistory_eq hist startMs endMs, ?_, ?_⟩
  · rw [getTradeHistory_eq]
    exact pairwise_tradeTime_filterMap _ (hsorted.filter _)
      (fun p hp => hscore p (List.mem_of_mem_filter hp))
  · intro e he
    rw [getTradeHistory_eq] at he
    obtain ⟨p, hp, hpd⟩ := List.mem_filterMap.mp he
    have hmem := List.mem_of_mem_filter hp
    have hr := List.of_mem_filter hp
    have he2 := hscore p hmem e (decodePayload_eq_some hpd)
    rw [he2]
    simpa using hr

/-- Witness for the C7 theorem on a concrete three-entry history with
one undecodable member. -/
theorem c7_history_range_witness :
    (let e1 : AggTradeEvent :=
       { stream := "btcusdt@trade",
         data := { eventType := "trade", eventTime := 1000, symbol := "BTCUSDT",
                   tradeID := 1, price := "100", quantity := "1",
                   buyerOrderID := 0, sellerOrderID := 0,
                   tradeTime := 1000, isBuyerMaker := false } }
     let e2 : AggTradeEvent :=
       { stream := "btcusdt@trade",
         data := { eventType := "trade", eventTime := 2000, symbol := "BTCUSDT",
                   tradeID := 2, price := "101", quantity := "2",
                   buyerOrderID := 0, sellerOrderID := 0,
                   tradeTime := 2000, isBuyerMaker := false } }
     let hist : List (Int × Payload) :=
       [(1000, Payload.ok e1), (1500, Payload.bad), (2000, Payload.ok e2)]
     getTradeHistory hist 0 3000 =
       (hist.filter (fun p => decide ((0 : Int) ≤ p.1) && decide (p.1 ≤ (3000 : Int)))).filterMap
         (fun p => decodePayload p.2)) :=
  (c7_history_range_ascending_no_dedup _ 0 3000
    (by simp [List.pairwise_cons])
    (by
      intro p hp e hpe
      simp only [List.mem_cons, List.not_mem_nil, or_false] at hp
      rcases hp with h | h | h <;> subst h <;> simp_all [Payload.ok.injEq] <;>
        exact congrArg (fun x => x.data.tradeTime) hpe.symm)).1

/-- C2: the claim says successive `performMigration` runs read disjoint
windows of raw history, so no trade is double-counted.  The code
recomputes `end = now − 2h`, `start = end − 22h` at every run (the
ticker fires every 5 minutes) with no processed cursor, and with the
default 24-hour retention the post-run `trimHistory` does not remove the
just-migrated trades; consecutive windows therefore overlap by 21h55m.
Evaluating two runs 5 minutes apart over a history holding one raw
trade aged 3 hours (quantity "0.5"): both runs read the same trade, and
after the second run the cold-store row for its minute carries
volume 1.0 and trade_count 2 — the single trade has been counted twice,
against the spec's MUST.  The spec is the intent and the missing cursor
the slip, so the code, not the claim, is at fault. -/
theorem c2_migrator_rereads_window_double_counts :
    (let ev : AggTradeEvent :=
       { stream := "btcusdt@trade",
         data := { eventType := "trade", eventTime := 1704114030000, symbol := "BTCUSDT",
                   tradeID := 7, price := "100", quantity := "0.5",
                   buyerOrderID := 0, sellerOrderID := 0,
                   tradeTime := 1704114030000, isBuyerMaker := false } }
     let hist : List (Int × Payload) := [(1704114030000, Payload.ok ev)]
     let r1 := performMigrationSym 1704124800000 (24 * hourMs) 1000000 "BTCUSDT" hist []
     let r2 := performMigrationSym 1704125100000 (24 * hourMs) 1000000 "BTCUSDT" r1.2 r1.1
     -- the first run reads the trade
     getTradeHistory hist (migrationWindow 1704124800000).1
         (migrationWindow 1704124800000).2 = [ev] ∧
     -- the second run, 5 minutes later, reads the very same trade again
     getTradeHistory r1.2 (migrationWindow 1704125100000).1
         (migrationWindow 1704125100000).2 = [ev] ∧
     -- after run 1 the row holds the trade once: volume 0.5, count 1
     r1.1 = [{ symbol := "BTCUSDT", timestamp := { ms := 1704114000000, isUTC := true },
               openPrice := { num := 100, exp := 0 }, highPrice := { num := 100, exp := 0 },
               lowPrice := { num := 100, exp := 0 }, closePrice := { num := 100, exp := 0 },
               volume := { num := 5, exp := 1 }, tradeCount := 1 }] ∧
     -- after run 2 volume and trade count are doubled: the trade was
     -- migrated twice
     r2.1 = [{ symbol := "BTCUSDT", timestamp := { ms := 1704114000000, isUTC := true },
               openPrice := { num := 100, exp := 0 }, highPrice := { num := 100, exp := 0 },
               lowPrice := { num := 100, exp := 0 }, closePrice := { num := 100, exp := 0 },
               volume := { num := 10, exp := 1 }, tradeCount := 2 }]) := by
  decide
